import Mathlib

/-!
Shallow embedding of the kv-stash core (Go sources under `internal/store`,
`internal/server`, `internal/proto`) for checking the natural-language
specification against the code.

Conventions of the embedding:
* machine integers are `Int`/`Nat` with explicit wrapping where Go wraps;
* Go's ambient clock (`time.Now()`) is threaded as an explicit `now : Int`
  parameter measured in nanoseconds, matching `time.Duration`'s unit;
* a shard's `map[string]*Value` becomes a function `String → Option Value`;
* the shard slice becomes a function `Nat → Shard` together with the fixed
  shard count, indexed modulo the count exactly as `getShard` does;
* fallible parsing returns `Option`/`Except`.
-/

namespace KVStash

/-- UTF-8 bytes of one character, as Go's `string` stores them
(Go source iterates `key[i]` over the raw bytes). -/
def utf8EncodeCharNat (c : Char) : List Nat :=
  let n := c.toNat
  if n < 0x80 then [n]
  else if n < 0x800 then
    [0xC0 ||| (n >>> 6), 0x80 ||| (n &&& 0x3F)]
  else if n < 0x10000 then
    [0xE0 ||| (n >>> 12), 0x80 ||| ((n >>> 6) &&& 0x3F), 0x80 ||| (n &&& 0x3F)]
  else
    [0xF0 ||| (n >>> 18), 0x80 ||| ((n >>> 12) &&& 0x3F),
     0x80 ||| ((n >>> 6) &&& 0x3F), 0x80 ||| (n &&& 0x3F)]

/-- The byte sequence of a Go string (UTF-8 encoding of its characters). -/
def stringBytes (s : String) : List Nat :=
  (s.data.map utf8EncodeCharNat).flatten

/-- `fnv1aHash` from `internal/store/store.go`: FNV-1a over the key's bytes
with 32-bit wrapping arithmetic. -/
def fnv1aHash (key : String) : Nat :=
  (stringBytes key).foldl
    (fun hash b => ((hash ^^^ b) * 16777619) % 4294967296) 2166136261

/-- `ValueType` from `internal/store/store.go`. -/
inductive ValueType where
  | StringType
  | IntegerType
deriving DecidableEq, Repr

/-- `Value` from `internal/store/store.go`: stored payload with metadata.
`ExpiresAt` is an absolute instant in nanoseconds (`*time.Time`), `Version`
is the `time.Now().UnixNano()` captured at the write. -/
structure Value where
  Data : String
  typ : ValueType
  ExpiresAt : Option Int
  Version : Int
deriving DecidableEq, Repr

/-- A shard's key space: `map[string]*Value`. -/
def Shard : Type := String → Option Value

/-- The sharded store: `shards []*Shard` of fixed length `numShards`,
indexed modulo `numShards` as in `getShard`. -/
structure Store where
  numShards : Nat
  shards : Nat → Shard

/-- `New` from `internal/store/store.go`: fails unless `shards > 0`,
otherwise every shard starts empty. -/
def Store.New (n : Nat) : Option Store :=
  if n = 0 then none
  else some { numShards := n, shards := fun _ _ => none }

/-- `getShard`: the index of the shard owning `key`, `fnv1aHash(key) % N`. -/
def Store.getShardIdx (s : Store) (key : String) : Nat :=
  fnv1aHash key % s.numShards

/-- The shard owning `key` (the `shard` local in each store method). -/
def Store.shardFor (s : Store) (key : String) : Shard :=
  s.shards (s.getShardIdx key)

/-- The raw map entry for `key` in its owning shard (`shard.data[key]`),
before any expiration check. -/
def Store.lookupRaw (s : Store) (key : String) : Option Value :=
  s.shardFor key key

/-- `map` insertion on one shard: `shard.data[key] = val`. -/
def shardInsert (sh : Shard) (key : String) (val : Value) : Shard :=
  fun k => if k = key then some val else sh k

/-- `map` deletion on one shard: `delete(shard.data, key)`. -/
def shardDelete (sh : Shard) (key : String) : Shard :=
  fun k => if k = key then none else sh k

/-- Replace the shard at index `i`, leaving all others untouched. -/
def Store.setShard (s : Store) (i : Nat) (sh : Shard) : Store :=
  { s with shards := fun j => if j = i then sh else s.shards j }

/-- The expiration test used by `Get` and `Exists`:
`value.ExpiresAt != nil && time.Now().After(*value.ExpiresAt)`.
`After` is strict: a record read exactly at its deadline is still live. -/
def isExpiredStrict (v : Value) (now : Int) : Bool :=
  match v.ExpiresAt with
  | none => false
  | some e => now > e

/-- `Store.Get`: returns the payload, lazily deleting an expired record. -/
def Store.Get (s : Store) (key : String) (now : Int) : Option String × Store :=
  match s.shardFor key key with
  | none => (none, s)
  | some v =>
    if isExpiredStrict v now then
      (none, s.setShard (s.getShardIdx key) (shardDelete (s.shardFor key) key))
    else
      (some v.Data, s)

/-- `Store.Set`: overwrites the record with a fresh `Value` whose version is
the current nanosecond clock; `expiration` is a relative duration. -/
def Store.Set (s : Store) (key value : String) (expiration : Option Int)
    (now : Int) : Store :=
  let val : Value :=
    { Data := value, typ := .StringType, Version := now,
      ExpiresAt := expiration.map (fun d => now + d) }
  s.setShard (s.getShardIdx key) (shardInsert (s.shardFor key) key val)

/-- `Store.Delete`: removes the record if present in the map (no expiration
check) and returns whether a removal occurred. -/
def Store.Delete (s : Store) (key : String) : Bool × Store :=
  match s.shardFor key key with
  | none => (false, s)
  | some _ =>
    (true, s.setShard (s.getShardIdx key) (shardDelete (s.shardFor key) key))

/-- `Store.Exists`: presence test with the lazy expiration check but,
unlike `Get`, no deletion of an expired record. -/
def Store.Exists (s : Store) (key : String) (now : Int) : Bool :=
  match s.shardFor key key with
  | none => false
  | some v => !(isExpiredStrict v now)

/-- `Store.Expire`: attaches or replaces the expiration in place
(the `Version` field is not bumped). -/
def Store.Expire (s : Store) (key : String) (duration : Int) (now : Int) :
    Bool × Store :=
  match s.shardFor key key with
  | none => (false, s)
  | some v =>
    (true, s.setShard (s.getShardIdx key)
      (shardInsert (s.shardFor key) key { v with ExpiresAt := some (now + duration) }))

/-- `Store.TTL`: sentinel `-2` for absent or expired (sweeping the record),
`-1` for no expiration, otherwise remaining whole seconds with positive
sub-second remainders rounded up to `1`. `ttl` is `time.Until(expiresAt)`
in nanoseconds and `ttl.Seconds()` truncates toward zero. -/
def Store.TTL (s : Store) (key : String) (now : Int) : Int × Store :=
  match s.shardFor key key with
  | none => (-2, s)
  | some v =>
    match v.ExpiresAt with
    | none => (-1, s)
    | some e =>
      let ttl : Int := e - now
      if ttl ≤ 0 then
        (-2, s.setShard (s.getShardIdx key) (shardDelete (s.shardFor key) key))
      else
        let ttlSeconds : Int := ttl.tdiv 1000000000
        if ttlSeconds = 0 ∧ ttl > 0 then (1, s) else (ttlSeconds, s)

/-- `strings.ToUpper`, character by character (structural recursion so the
kernel can evaluate it). -/
def goToUpper (s : String) : String :=
  String.mk (s.data.map Char.toUpper)

/-! ### Go integer parsing and 64-bit wrapping arithmetic -/

/-- Decimal digits to their value; `none` unless the list is a nonempty
run of ASCII digits. -/
def digitsToNat (cs : List Char) : Option Nat :=
  if cs ≠ [] ∧ cs.all Char.isDigit then
    some (cs.foldl (fun a c => a * 10 + (c.toNat - 48)) 0)
  else none

/-- `strconv.ParseInt(s, 10, 64)` (also `strconv.Atoi` on a 64-bit
platform): optional sign, decimal digits, signed 64-bit range check. -/
def goParseInt64 (s : String) : Option Int :=
  let (neg, ds) :=
    match s.data with
    | '-' :: rest => (true, rest)
    | '+' :: rest => (false, rest)
    | rest => (false, rest)
  match digitsToNat ds with
  | none => none
  | some n =>
    let v : Int := if neg then -(n : Int) else (n : Int)
    if v < -(2 ^ 63) ∨ v > 2 ^ 63 - 1 then none else some v

/-- Go's wrapping `int64` addition result: reduce into `[-2^63, 2^63)`. -/
def int64wrap (x : Int) : Int :=
  ((x + 2 ^ 63).emod (2 ^ 64)) - 2 ^ 63

/-! ### RESP responses (`internal/proto/response.go`) -/

/-- The reply kinds the modelled handlers construct (`Response` with its
`ResponseType` tag; the `Array` kind is used only by `MGET`, which no claim
touches, so it is omitted). -/
inductive Response where
  | simpleString (s : String)
  | error (s : String)
  | integer (i : Int)
  | bulkString (s : String)
  | nullBulkString
deriving DecidableEq, Repr

/-- `writeBulkString`: `$<len>\r\n<s>\r\n` where `len` counts bytes. -/
def writeBulkString (s : String) : String :=
  "$" ++ toString (stringBytes s).length ++ "\r\n" ++ s ++ "\r\n"

/-- `WriteResponse`: the wire encoding of a reply. -/
def WriteResponse : Response → String
  | .simpleString s => "+" ++ s ++ "\r\n"
  | .error s => "-" ++ s ++ "\r\n"
  | .integer i => ":" ++ toString i ++ "\r\n"
  | .bulkString s => writeBulkString s
  | .nullBulkString => "$-1\r\n"

/-! ### Command handlers (`internal/server/handler.go`)

Each handler takes the store and the ambient clock and returns the reply
together with the possibly-mutated store. -/

/-- `handleGet`. -/
def handleGet (s : Store) (args : List String) (now : Int) :
    Response × Store :=
  match args with
  | [key] =>
    match s.Get key now with
    | (none, s') => (.nullBulkString, s')
    | (some value, s') => (.bulkString value, s')
  | _ => (.error "ERR wrong number of arguments for 'get' command", s)

/-- The option-scanning loop of `handleSet` (`for i := 2; i < len(args)`):
`EX`/`PX` consume the following argument, anything else is a syntax error.
Returns the accumulated relative expiration in nanoseconds. -/
def parseSetOptions (expiration : Option Int) :
    List String → Except String (Option Int)
  | [] => .ok expiration
  | opt :: rest =>
    match goToUpper opt with
    | "EX" =>
      match rest with
      | [] => .error "ERR syntax error"
      | v :: rest' =>
        match goParseInt64 v with
        | none => .error "ERR value is not an integer or out of range"
        | some seconds => parseSetOptions (some (seconds * 1000000000)) rest'
    | "PX" =>
      match rest with
      | [] => .error "ERR syntax error"
      | v :: rest' =>
        match goParseInt64 v with
        | none => .error "ERR value is not an integer or out of range"
        | some ms => parseSetOptions (some (ms * 1000000)) rest'
    | _ => .error "ERR syntax error"

/-- `handleSet`: `SET key value [EX s | PX ms]…`; any other option token
(including `NX`, `XX`, `KEEPTTL`, `GET`) is rejected with a syntax error
before the store is touched. -/
def handleSet (s : Store) (args : List String) (now : Int) :
    Response × Store :=
  match args with
  | key :: value :: opts =>
    match parseSetOptions none opts with
    | .error msg => (.error msg, s)
    | .ok expiration => (.simpleString "OK", s.Set key value expiration now)
  | _ => (.error "ERR wrong number of arguments for 'set' command", s)

/-- The deletion loop of `handleDel`. -/
def delLoop (s : Store) (keys : List String) (deleted : Int) : Int × Store :=
  match keys with
  | [] => (deleted, s)
  | key :: rest =>
    match s.Delete key with
    | (true, s') => delLoop s' rest (deleted + 1)
    | (false, s') => delLoop s' rest deleted

/-- `handleDel`: integer count of the keys actually removed. -/
def handleDel (s : Store) (args : List String) : Response × Store :=
  match args with
  | [] => (.error "ERR wrong number of arguments for 'del' command", s)
  | _ =>
    let (deleted, s') := delLoop s args 0
    (.integer deleted, s')

/-- `incrementBy`: read-parse-add-write. A missing key counts as `0`;
unparseable bytes give the integer error; the addition is Go's wrapping
`int64` addition (no overflow check); the write-back is a plain `Set` with
no expiration. -/
def incrementBy (s : Store) (key : String) (increment : Int) (now : Int) :
    Response × Store :=
  let (value, s1) := s.Get key now
  match value with
  | some str =>
    match goParseInt64 str with
    | none => (.error "ERR value is not an integer or out of range", s1)
    | some current =>
      let newValue := int64wrap (current + increment)
      (.integer newValue, s1.Set key (toString newValue) none now)
  | none =>
    let newValue := int64wrap increment
    (.integer newValue, s1.Set key (toString newValue) none now)

/-- `handleIncr`. -/
def handleIncr (s : Store) (args : List String) (now : Int) :
    Response × Store :=
  match args with
  | [key] => incrementBy s key 1 now
  | _ => (.error "ERR wrong number of arguments for 'incr' command", s)

/-- `handleDecr`. -/
def handleDecr (s : Store) (args : List String) (now : Int) :
    Response × Store :=
  match args with
  | [key] => incrementBy s key (-1) now
  | _ => (.error "ERR wrong number of arguments for 'decr' command", s)

/-- `handleIncrBy`. -/
def handleIncrBy (s : Store) (args : List String) (now : Int) :
    Response × Store :=
  match args with
  | [key, amt] =>
    match goParseInt64 amt with
    | none => (.error "ERR value is not an integer or out of range", s)
    | some increment => incrementBy s key increment now
  | _ => (.error "ERR wrong number of arguments for 'incrby' command", s)

/-- `handleDecrBy`. -/
def handleDecrBy (s : Store) (args : List String) (now : Int) :
    Response × Store :=
  match args with
  | [key, amt] =>
    match goParseInt64 amt with
    | none => (.error "ERR value is not an integer or out of range", s)
    | some decrement => incrementBy s key (-decrement) now
  | _ => (.error "ERR wrong number of arguments for 'decrby' command", s)

/-! ### RESP2 request parser (`internal/proto`, `Parser`)

The buffered byte stream becomes a `List Char`. `readLine` mirrors
`bufio.Reader.ReadString('\n')` followed by the CRLF/LF strip: a stream
with no `'\n'` left is an error (the Go code discards partial data when
`ReadString` reports one). -/

/-- `Command` from the proto package. -/
structure Command where
  Name : String
  Args : List String
deriving DecidableEq, Repr

/-- Split at the first `'\n'`, returning the bytes before it and the rest. -/
def readLineAux : List Char → Option (List Char × List Char)
  | [] => none
  | c :: rest =>
    if c = '\n' then some ([], rest)
    else (readLineAux rest).map (fun p => (c :: p.1, p.2))

/-- `Parser.readLine`: one line with its `"\r\n"` (or bare `"\n"`)
terminator removed. -/
def readLine (cs : List Char) : Option (List Char × List Char) :=
  (readLineAux cs).map fun (l, rest) =>
    (if l.getLast? = some '\r' then l.dropLast else l, rest)

/-- `Parser.parseBulkString`: `line` is the already-read `$<len>` header.
A negative length is accepted as a null bulk and decoded as `""` without
consuming further input; otherwise exactly `len` bytes are read, then one
trailing line. -/
def parseBulkString (line : List Char) (cs : List Char) :
    Except String (String × List Char) :=
  match goParseInt64 (String.mk (line.drop 1)) with
  | none =>
    .error ("invalid bulk string length: " ++ String.mk (line.drop 1))
  | some length =>
    if length < 0 then .ok ("", cs)
    else if length = 0 then
      match readLine cs with
      | none => .error "eof"
      | some (_, rest) => .ok ("", rest)
    else if cs.length < length.toNat then
      .error "failed to read bulk string data"
    else
      match readLine (cs.drop length.toNat) with
      | none => .error "failed to read bulk string trailing CRLF"
      | some (_, rest) => .ok (String.mk (cs.take length.toNat), rest)

/-- `Parser.parseElement`: one array element; bulk strings are parsed in
full, while `+`/`-`/`:` lines and bare lines pass through as text. -/
def parseElement (cs : List Char) : Except String (String × List Char) :=
  match readLine cs with
  | none => .error "eof"
  | some (line, rest) =>
    match line with
    | [] => .error "empty element"
    | '$' :: _ => parseBulkString line rest
    | '+' :: t => .ok (String.mk t, rest)
    | '-' :: t => .ok (String.mk t, rest)
    | ':' :: t => .ok (String.mk t, rest)
    | _ => .ok (String.mk line, rest)

/-- The element-reading loop of `parseArray`. -/
def parseElements : Nat → List Char → Except String (List String × List Char)
  | 0, cs => .ok ([], cs)
  | n + 1, cs =>
    match parseElement cs with
    | .error e => .error e
    | .ok (el, rest) =>
      match parseElements n rest with
      | .error e => .error e
      | .ok (els, rest') => .ok (el :: els, rest')

/-- `Parser.parseArray`: `line` is the already-read `*<count>` header.
Only a negative count is rejected; there is no upper bound on the count. -/
def parseArray (line : List Char) (cs : List Char) :
    Except String (Command × List Char) :=
  match goParseInt64 (String.mk (line.drop 1)) with
  | none => .error ("invalid array length: " ++ String.mk (line.drop 1))
  | some count =>
    if count < 0 then .error ("negative array length: " ++ toString count)
    else if count = 0 then .ok ({ Name := "", Args := [] }, cs)
    else
      match parseElements count.toNat cs with
      | .error e => .error e
      | .ok (elements, rest) =>
        match elements with
        | [] => .ok ({ Name := "", Args := [] }, rest)
        | e0 :: args => .ok ({ Name := goToUpper e0, Args := args }, rest)

/-- `strings.Fields`: whitespace-separated tokens. -/
def goFields (s : String) : List String :=
  (s.split Char.isWhitespace).filter (fun t => t ≠ "")

/-- `Parser.parseInlineString`. -/
def parseInlineString (line : List Char) (cs : List Char) :
    Except String (Command × List Char) :=
  match goFields (String.mk line) with
  | [] => .ok ({ Name := "", Args := [] }, cs)
  | w0 :: ws => .ok ({ Name := goToUpper w0, Args := ws }, cs)

/-- `Parser.parseInline`. -/
def parseInline (line : List Char) (cs : List Char) :
    Except String (Command × List Char) :=
  match line with
  | '+' :: t => .ok ({ Name := "RESPONSE", Args := [String.mk t] }, cs)
  | '-' :: t => .ok ({ Name := "ERROR", Args := [String.mk t] }, cs)
  | ':' :: t => .ok ({ Name := "INTEGER", Args := [String.mk t] }, cs)
  | _ => parseInlineString line cs

/-- `Parser.ParseCommand`: one command from the stream. -/
def ParseCommand (cs : List Char) : Except String (Command × List Char) :=
  match readLine cs with
  | none => .error "eof"
  | some (line, rest) =>
    match line with
    | [] => .error "empty command"
    | '*' :: _ => parseArray line rest
    | '+' :: _ => parseInline line rest
    | '-' :: _ => parseInline line rest
    | ':' :: _ => parseInline line rest
    | '$' :: _ => parseInline line rest
    | _ => parseInlineString line rest

instance {ε α : Type} [DecidableEq ε] [DecidableEq α] :
    DecidableEq (Except ε α) := fun x y =>
  match x, y with
  | .error a, .error b =>
    if h : a = b then .isTrue (by rw [h]) else .isFalse (by simp [h])
  | .ok a, .ok b =>
    if h : a = b then .isTrue (by rw [h]) else .isFalse (by simp [h])
  | .error _, .ok _ => .isFalse (by simp)
  | .ok _, .error _ => .isFalse (by simp)

/-! ### Basic store lemmas -/

/-- An empty four-shard store, as produced by `New` with `Shards: 4`. -/
def store0 : Store := { numShards := 4, shards := fun _ _ => none }

theorem lookupRaw_setShard_self (s : Store) (key : String) (sh : Shard) :
    (s.setShard (s.getShardIdx key) sh).lookupRaw key = sh key := by
  simp [Store.setShard, Store.lookupRaw, Store.shardFor, Store.getShardIdx]

theorem lookupRaw_Set_self (s : Store) (key value : String) (exp : Option Int)
    (now : Int) :
    (s.Set key value exp now).lookupRaw key
      = some { Data := value, typ := .StringType, Version := now,
               ExpiresAt := exp.map (fun d => now + d) } := by
  simp [Store.Set, lookupRaw_setShard_self, shardInsert]

theorem Delete_of_lookupRaw_some (s : Store) (key : String) (v : Value)
    (h : s.lookupRaw key = some v) :
    s.Delete key
      = (true, s.setShard (s.getShardIdx key)
          (shardDelete (s.shardFor key) key)) := by
  unfold Store.Delete
  rw [show s.shardFor key key = some v from h]

theorem Delete_of_lookupRaw_none (s : Store) (key : String)
    (h : s.lookupRaw key = none) : s.Delete key = (false, s) := by
  unfold Store.Delete
  rw [show s.shardFor key key = none from h]

theorem Get_of_lookupRaw_none (s : Store) (key : String) (now : Int)
    (h : s.lookupRaw key = none) : s.Get key now = (none, s) := by
  unfold Store.Get
  rw [show s.shardFor key key = none from h]

theorem lookupRaw_Delete_self (s : Store) (key : String) :
    (s.Delete key).2.lookupRaw key = none := by
  unfold Store.Delete
  cases h : s.shardFor key key with
  | none => exact h
  | some v => simp [lookupRaw_setShard_self, shardDelete]

/-! ### Claim theorems -/

/-- C1 (code defect exhibited): on a key holding the canonical maximal
signed 64-bit integer, `INCR` does not reply with the integer error; it
wraps silently to `-2^63` and overwrites the stored value with the wrapped
result. -/
theorem incr_maxint64_wraps :
    (handleIncr (store0.Set "k" "9223372036854775807" none 0) ["k"] 5).1
      = .integer (-9223372036854775808) ∧
    (((handleIncr (store0.Set "k" "9223372036854775807" none 0) ["k"] 5).2.lookupRaw
        "k").map Value.Data) = some "-9223372036854775808" := by
  constructor <;> decide

/-- C2 (code defect exhibited): the `SET` option scanner recognises only
`EX` and `PX`; a `SET k v NX` on an existing key and a `SET k v XX` on an
absent key both reply `ERR syntax error` (not null-bulk) and leave the
store untouched. -/
theorem set_nx_xx_syntax_error :
    handleSet (store0.Set "k" "v1" none 0) ["k", "v2", "NX"] 1
      = (.error "ERR syntax error", store0.Set "k" "v1" none 0) ∧
    handleSet store0 ["j", "v", "XX"] 1
      = (.error "ERR syntax error", store0) := by
  have hnx : parseSetOptions none ["NX"] = .error "ERR syntax error" := by decide
  have hxx : parseSetOptions none ["XX"] = .error "ERR syntax error" := by decide
  constructor
  · show (match parseSetOptions none ["NX"] with
      | .error msg => ((.error msg : Response), store0.Set "k" "v1" none 0)
      | .ok expiration =>
        (.simpleString "OK", (store0.Set "k" "v1" none 0).Set "k" "v2" expiration 1))
      = (.error "ERR syntax error", store0.Set "k" "v1" none 0)
    rw [hnx]
  · show (match parseSetOptions none ["XX"] with
      | .error msg => ((.error msg : Response), store0)
      | .ok expiration => (.simpleString "OK", store0.Set "j" "v" expiration 1))
      = (.error "ERR syntax error", store0)
    rw [hxx]

/-- C3 (counterexample): a record whose deadline (5 ns) has passed at
`now = 10` is still flagged expired by the read-path check, yet
`Delete` returns `true` for it, not `false` as claimed. -/
theorem delete_expired_returns_true :
    (((store0.Set "k" "v" (some 5) 0).lookupRaw "k").map
        (fun v => isExpiredStrict v 10)) = some true ∧
    ((store0.Set "k" "v" (some 5) 0).Delete "k").1 = true := by
  constructor <;> decide

/-- C3 (amended): `Delete` never consults the clock, so an
expired-but-unswept record counts as present: `delete(k)` on it returns
`true` and the record is removed from the shard's map. -/
theorem delete_expired_removes_and_reports_true (s : Store) (key : String)
    (v : Value) (now : Int) (hv : s.lookupRaw key = some v)
    (hexp : isExpiredStrict v now = true) :
    (s.Delete key).1 = true ∧ (s.Delete key).2.lookupRaw key = none := by
  rw [Delete_of_lookupRaw_some s key v hv]
  exact ⟨rfl, by simp [lookupRaw_setShard_self, shardDelete]⟩

/-- C3 (witness for the amended statement): the concrete expired record of
the counterexample is removed with return value `true`. -/
theorem delete_expired_removes_and_reports_true_witness :
    (((store0.Set "k" "v" (some 5) 0).Delete "k").1 = true ∧
      ((store0.Set "k" "v" (some 5) 0).Delete "k").2.lookupRaw "k" = none) :=
  delete_expired_removes_and_reports_true (store0.Set "k" "v" (some 5) 0)
    "k" { Data := "v", typ := .StringType, ExpiresAt := some 5, Version := 0 }
    10 (by decide) (by decide)

/-- C4 (counterexample): `Exists` observes the lazy-expiration condition on
a record whose deadline (5 ns) has passed at `now = 10` and reports
absence, but it performs no deletion — its Go body takes only a read lock
and returns, so the record is still present in the shard's map. -/
theorem exists_expired_leaves_record :
    (store0.Set "k" "v" (some 5) 0).Exists "k" 10 = false ∧
    (store0.Set "k" "v" (some 5) 0).lookupRaw "k"
      = some { Data := "v", typ := .StringType, ExpiresAt := some 5,
               Version := 0 } := by
  constructor <;> decide

/-- C4 (amended): of the read paths, `Get` (for `now` strictly past the
deadline) deletes the expired entry and reports absence, and `TTL` (for
`now ≥` the deadline) deletes it and reports `-2`; `Exists` reports
absence for `now` strictly past the deadline but performs no deletion, the
record remaining in the shard's map. -/
theorem read_paths_on_expired (s : Store) (key : String) (v : Value)
    (e now : Int) (hv : s.lookupRaw key = some v)
    (he : v.ExpiresAt = some e) :
    (e < now →
      (s.Get key now).1 = none ∧ (s.Get key now).2.lookupRaw key = none) ∧
    (e < now → s.Exists key now = false) ∧
    (e ≤ now →
      (s.TTL key now).1 = -2 ∧ (s.TTL key now).2.lookupRaw key = none) := by
  have hsf : s.shardFor key key = some v := hv
  refine ⟨fun hlt => ?_, fun hlt => ?_, fun hle => ?_⟩
  · unfold Store.Get
    rw [hsf]
    simp [isExpiredStrict, he, hlt, lookupRaw_setShard_self, shardDelete]
  · unfold Store.Exists
    rw [hsf]
    simp [isExpiredStrict, he, hlt]
  · unfold Store.TTL
    rw [hsf]
    simp [he, hle, lookupRaw_setShard_self, shardDelete]

/-- C4 (witness for the amended statement): the three read paths applied
to the concrete expired record of the counterexample. -/
theorem read_paths_on_expired_witness :
    (((store0.Set "k" "v" (some 5) 0).Get "k" 10).1 = none ∧
      ((store0.Set "k" "v" (some 5) 0).Get "k" 10).2.lookupRaw "k" = none) ∧
    (store0.Set "k" "v" (some 5) 0).Exists "k" 10 = false ∧
    (((store0.Set "k" "v" (some 5) 0).TTL "k" 10).1 = -2 ∧
      ((store0.Set "k" "v" (some 5) 0).TTL "k" 10).2.lookupRaw "k" = none) := by
  have h := read_paths_on_expired (store0.Set "k" "v" (some 5) 0) "k"
    { Data := "v", typ := .StringType, ExpiresAt := some 5, Version := 0 }
    5 10 (by decide) rfl
  exact ⟨h.1 (by decide), h.2.1 (by decide), h.2.2 (by decide)⟩

/-- C5: `TTL` returns `-2` for an absent key, `-1` for a key with no
expiration, sweeps an expired-but-unswept key (returning `-2` with the
record removed), and otherwise returns the remaining whole seconds with a
positive sub-second remainder rounded up to `1`, leaving the store
untouched. -/
theorem ttl_sentinels (s : Store) (key : String) (now : Int) :
    (s.lookupRaw key = none → s.TTL key now = (-2, s)) ∧
    (∀ v, s.lookupRaw key = some v → v.ExpiresAt = none →
      s.TTL key now = (-1, s)) ∧
    (∀ v e, s.lookupRaw key = some v → v.ExpiresAt = some e → e - now ≤ 0 →
      (s.TTL key now).1 = -2 ∧ (s.TTL key now).2.lookupRaw key = none) ∧
    (∀ v e, s.lookupRaw key = some v → v.ExpiresAt = some e → 0 < e - now →
      (s.TTL key now).1
        = (if (e - now).tdiv 1000000000 = 0 then 1
           else (e - now).tdiv 1000000000) ∧
      (s.TTL key now).2 = s) := by
  refine ⟨fun h => ?_, fun v h he => ?_, fun v e h he hexp => ?_,
    fun v e h he hpos => ?_⟩
  · unfold Store.TTL
    rw [show s.shardFor key key = none from h]
  · unfold Store.TTL
    rw [show s.shardFor key key = some v from h]
    simp only [he]
  · unfold Store.TTL
    rw [show s.shardFor key key = some v from h]
    simp [he, hexp, lookupRaw_setShard_self, shardDelete]
  · unfold Store.TTL
    rw [show s.shardFor key key = some v from h]
    simp only [he]
    rw [if_neg (by omega)]
    simp only [gt_iff_lt, hpos, and_true]
    split <;> simp_all

/-- C5 (witness): the four sentinel behaviours on concrete stores —
absent key, expired key (deadline 5 ns at `now = 10`, record swept),
2.5 s remaining truncated to `2`, and a 0.499999999 s remainder rounded up
to `1`. -/
theorem ttl_sentinels_witness :
    store0.TTL "nope" 0 = (-2, store0) ∧
    (((store0.Set "k" "v" (some 5) 0).TTL "k" 10).1 = -2 ∧
      ((store0.Set "k" "v" (some 5) 0).TTL "k" 10).2.lookupRaw "k" = none) ∧
    ((store0.Set "k" "v" (some 2500000000) 0).TTL "k" 0).1 = 2 ∧
    ((store0.Set "k" "v" (some 2500000000) 0).TTL "k" 2000000001).1 = 1 := by
  refine ⟨(ttl_sentinels store0 "nope" 0).1 (by decide), ?_, ?_, ?_⟩
  · exact (ttl_sentinels _ "k" 10).2.2.1
      { Data := "v", typ := .StringType, ExpiresAt := some 5, Version := 0 }
      5 (by decide) rfl (by decide)
  · have h := ((ttl_sentinels (store0.Set "k" "v" (some 2500000000) 0)
      "k" 0).2.2.2
      { Data := "v", typ := .StringType, ExpiresAt := some 2500000000,
        Version := 0 }
      2500000000 (by decide) rfl (by decide)).1
    rw [h]; decide
  · have h := ((ttl_sentinels (store0.Set "k" "v" (some 2500000000) 0)
      "k" 2000000001).2.2.2
      { Data := "v", typ := .StringType, ExpiresAt := some 2500000000,
        Version := 0 }
      2500000000 (by decide) rfl (by decide)).1
    rw [h]; decide

theorem Get_of_lookupRaw_some_live (s : Store) (key : String) (now : Int)
    (v : Value) (hv : s.lookupRaw key = some v)
    (hlive : isExpiredStrict v now = false) :
    s.Get key now = (some v.Data, s) := by
  unfold Store.Get
  rw [show s.shardFor key key = some v from hv]
  simp [hlive]

theorem handleDel_single (s : Store) (k : String) :
    handleDel s [k]
      = (.integer (if (s.Delete k).1 then 1 else 0), (s.Delete k).2) := by
  unfold handleDel delLoop
  cases h : s.Delete k with
  | mk b s' => cases b <;> simp [delLoop]

theorem handleSet_plain (s : Store) (k v : String) (now : Int) :
    handleSet s [k, v] now = (.simpleString "OK", s.Set k v none now) := rfl

/-- C8: after `SET k v` then `DEL k`, the `DEL` reports one removal, a
`GET k` replies null-bulk, and a second `DEL k` replies the integer `0` —
for every starting store, key, value and clock. -/
theorem set_del_get_del (s : Store) (k v : String) (n1 n2 : Int) :
    (handleDel (handleSet s [k, v] n1).2 [k]).1 = .integer 1 ∧
    (handleGet (handleDel (handleSet s [k, v] n1).2 [k]).2 [k] n2).1
      = .nullBulkString ∧
    (handleDel (handleDel (handleSet s [k, v] n1).2 [k]).2 [k]).1
      = .integer 0 := by
  rw [handleSet_plain]
  have hraw := lookupRaw_Set_self s k v none n1
  have hdel1 := Delete_of_lookupRaw_some (s.Set k v none n1) k _ hraw
  have hgone := lookupRaw_Delete_self (s.Set k v none n1) k
  refine ⟨?_, ?_, ?_⟩
  · rw [handleDel_single, hdel1]
    simp
  · rw [handleDel_single, handleGet]
    rw [Get_of_lookupRaw_none _ k n2 hgone]
  · rw [handleDel_single, handleDel_single,
      Delete_of_lookupRaw_none _ k hgone]
    simp [hdel1]

/-- C9: `SET k ""` followed by `GET k` replies the empty bulk string,
whose wire form is `$0\r\n\r\n`, not the null bulk `$-1\r\n`. -/
theorem empty_bulk_not_null (s : Store) (k : String) (n1 n2 : Int) :
    (handleGet (handleSet s [k, ""] n1).2 [k] n2).1 = .bulkString "" ∧
    WriteResponse (handleGet (handleSet s [k, ""] n1).2 [k] n2).1
      = "$0\r\n\r\n" ∧
    WriteResponse (handleGet (handleSet s [k, ""] n1).2 [k] n2).1
      ≠ WriteResponse .nullBulkString := by
  rw [handleSet_plain]
  have hraw := lookupRaw_Set_self s k "" none n1
  have hget := Get_of_lookupRaw_some_live (s.Set k "" none n1) k n2 _ hraw rfl
  have h1 : (handleGet (s.Set k "" none n1) [k] n2).1 = .bulkString "" := by
    rw [handleGet, hget]
  exact ⟨h1, by rw [h1]; decide, by rw [h1]; decide⟩

/-- C10: a successful numeric command on a live key (here: one whose
record carries an expiration deadline not yet reached and whose payload
parses as a signed 64-bit integer) writes back through a plain `Set` with
no expiration: the stored record afterwards has `ExpiresAt` cleared, the
new canonical payload, and a fresh `Version` taken from the clock. -/
theorem incr_clears_expiration (s : Store) (k : String) (inc now e cur : Int)
    (v : Value) (hv : s.lookupRaw k = some v) (he : v.ExpiresAt = some e)
    (hlive : ¬ e < now) (hparse : goParseInt64 v.Data = some cur) :
    incrementBy s k inc now
      = (.integer (int64wrap (cur + inc)),
         s.Set k (toString (int64wrap (cur + inc))) none now) ∧
    (incrementBy s k inc now).2.lookupRaw k
      = some { Data := toString (int64wrap (cur + inc)), typ := .StringType,
               ExpiresAt := none, Version := now } := by
  have hexp : isExpiredStrict v now = false := by
    simp [isExpiredStrict, he, hlive]
  have hget := Get_of_lookupRaw_some_live s k now v hv hexp
  have h1 : incrementBy s k inc now
      = (.integer (int64wrap (cur + inc)),
         s.Set k (toString (int64wrap (cur + inc))) none now) := by
    unfold incrementBy
    rw [hget]
    simp [hparse]
  refine ⟨h1, ?_⟩
  rw [h1]
  exact lookupRaw_Set_self ..

/-- C10 (witness): incrementing a key stored with a 1 s TTL by 3 at clock
7 ns leaves a record with no expiration, payload `"8"` and version `7`. -/
theorem incr_clears_expiration_witness :
    (incrementBy (store0.Set "k" "5" (some 1000000000) 0) "k" 3 7).2.lookupRaw
        "k"
      = some { Data := "8", typ := .StringType, ExpiresAt := none,
               Version := 7 } := by
  have h := (incr_clears_expiration (store0.Set "k" "5" (some 1000000000) 0)
    "k" 3 7 1000000000 5
    { Data := "5", typ := .StringType, ExpiresAt := some 1000000000,
      Version := 0 }
    (by decide) rfl (by decide) (by decide)).2
  rw [h]
  decide

/-! ### Shard-placement invariant (claim C7) -/

/-- Every raw map entry lives in the shard its key hashes to. -/
def Store.Placed (s : Store) : Prop :=
  ∀ j k, (s.shards j k).isSome = true → j = s.getShardIdx k

theorem shards_setShard_other (s : Store) (i j : Nat) (sh : Shard)
    (hj : j ≠ i) : (s.setShard i sh).shards j = s.shards j := by
  simp [Store.setShard, hj]

theorem Placed_setShard (s : Store) (key : String) (sh : Shard)
    (hp : s.Placed)
    (hsh : ∀ k, (sh k).isSome = true →
      ((s.shardFor key) k).isSome = true ∨ k = key) :
    (s.setShard (s.getShardIdx key) sh).Placed := by
  intro j k hk
  show j = s.getShardIdx k
  simp only [Store.setShard] at hk
  by_cases hj : j = s.getShardIdx key
  · subst hj
    rw [if_pos rfl] at hk
    rcases hsh k hk with hold | hkey
    · exact hp _ k hold
    · rw [hkey]
  · rw [if_neg hj] at hk
    exact hp j k hk

theorem Placed_setShard_shardDelete (s : Store) (key : String)
    (hp : s.Placed) :
    (s.setShard (s.getShardIdx key)
        (shardDelete (s.shardFor key) key)).Placed := by
  refine Placed_setShard s key _ hp fun k hk => ?_
  unfold shardDelete at hk
  by_cases hkk : k = key
  · simp [hkk] at hk
  · rw [if_neg hkk] at hk
    exact Or.inl hk

theorem Placed_setShard_shardInsert (s : Store) (key : String) (val : Value)
    (hp : s.Placed) :
    (s.setShard (s.getShardIdx key)
        (shardInsert (s.shardFor key) key val)).Placed := by
  refine Placed_setShard s key _ hp fun k hk => ?_
  unfold shardInsert at hk
  by_cases hkk : k = key
  · exact Or.inr hkk
  · rw [if_neg hkk] at hk
    exact Or.inl hk

theorem Delete_snd_cases (s : Store) (key : String) :
    (s.Delete key).2 = s ∨
    (s.Delete key).2
      = s.setShard (s.getShardIdx key) (shardDelete (s.shardFor key) key) := by
  unfold Store.Delete
  cases s.shardFor key key with
  | none => exact Or.inl rfl
  | some v => exact Or.inr rfl

theorem Get_snd_cases (s : Store) (key : String) (now : Int) :
    (s.Get key now).2 = s ∨
    (s.Get key now).2
      = s.setShard (s.getShardIdx key) (shardDelete (s.shardFor key) key) := by
  unfold Store.Get
  cases s.shardFor key key with
  | none => exact Or.inl rfl
  | some v =>
    dsimp only
    by_cases hx : isExpiredStrict v now = true
    · exact Or.inr (by simp [hx])
    · exact Or.inl (by simp [hx])

theorem TTL_snd_cases (s : Store) (key : String) (now : Int) :
    (s.TTL key now).2 = s ∨
    (s.TTL key now).2
      = s.setShard (s.getShardIdx key) (shardDelete (s.shardFor key) key) := by
  unfold Store.TTL
  cases s.shardFor key key with
  | none => exact Or.inl rfl
  | some v =>
    dsimp only
    cases v.ExpiresAt with
    | none => exact Or.inl rfl
    | some e =>
      dsimp only
      by_cases hx : e - now ≤ 0
      · exact Or.inr (by simp [hx])
      · left
        rw [if_neg hx]
        split <;> rfl

theorem Expire_snd_cases (s : Store) (key : String) (d now : Int) :
    (s.Expire key d now).2 = s ∨
    ∃ v, (s.Expire key d now).2
      = s.setShard (s.getShardIdx key) (shardInsert (s.shardFor key) key v) := by
  unfold Store.Expire
  cases s.shardFor key key with
  | none => exact Or.inl rfl
  | some v => exact Or.inr ⟨_, rfl⟩

/-- C7: the owning shard of a key is `fnv1aHash key % N`, a function of the
key and the fixed shard count only; every store operation leaves all other
shards untouched; the placement invariant (each raw entry sits in its
key's shard) holds for the store `New` builds and is preserved by `Set`,
`Delete`, `Get`, `TTL` and `Expire`; and under it a key is present in at
most one shard. -/
theorem shard_placement (s : Store) (key value : String) (exp : Option Int)
    (d now : Int) :
    (s.getShardIdx key = fnv1aHash key % s.numShards) ∧
    (∀ t : Store, t.numShards = s.numShards →
      t.getShardIdx key = s.getShardIdx key) ∧
    (∀ j, j ≠ s.getShardIdx key →
      (s.Set key value exp now).shards j = s.shards j ∧
      (s.Delete key).2.shards j = s.shards j ∧
      (s.Get key now).2.shards j = s.shards j ∧
      (s.TTL key now).2.shards j = s.shards j ∧
      (s.Expire key d now).2.shards j = s.shards j) ∧
    (s.Placed →
      (s.Set key value exp now).Placed ∧ (s.Delete key).2.Placed ∧
      (s.Get key now).2.Placed ∧ (s.TTL key now).2.Placed ∧
      (s.Expire key d now).2.Placed) ∧
    (s.Placed → ∀ k i j, (s.shards i k).isSome = true →
      (s.shards j k).isSome = true → i = j) ∧
    (∀ n st, Store.New n = some st → st.Placed) := by
  refine ⟨rfl, fun t ht => ?_, fun j hj => ?_, fun hp => ?_, fun hp => ?_,
    fun n st hst => ?_⟩
  · unfold Store.getShardIdx
    rw [ht]
  · refine ⟨shards_setShard_other s _ j _ hj, ?_, ?_, ?_, ?_⟩
    · rcases Delete_snd_cases s key with h | h
      · rw [h]
      · rw [h]
        exact shards_setShard_other s _ j _ hj
    · rcases Get_snd_cases s key now with h | h
      · rw [h]
      · rw [h]
        exact shards_setShard_other s _ j _ hj
    · rcases TTL_snd_cases s key now with h | h
      · rw [h]
      · rw [h]
        exact shards_setShard_other s _ j _ hj
    · rcases Expire_snd_cases s key d now with h | ⟨v, h⟩
      · rw [h]
      · rw [h]
        exact shards_setShard_other s _ j _ hj
  · refine ⟨Placed_setShard_shardInsert s key _ hp, ?_, ?_, ?_, ?_⟩
    · rcases Delete_snd_cases s key with h | h
      · rw [h]; exact hp
      · rw [h]; exact Placed_setShard_shardDelete s key hp
    · rcases Get_snd_cases s key now with h | h
      · rw [h]; exact hp
      · rw [h]; exact Placed_setShard_shardDelete s key hp
    · rcases TTL_snd_cases s key now with h | h
      · rw [h]; exact hp
      · rw [h]; exact Placed_setShard_shardDelete s key hp
    · rcases Expire_snd_cases s key d now with h | ⟨v, h⟩
      · rw [h]; exact hp
      · rw [h]; exact Placed_setShard_shardInsert s key v hp
  · intro k i j hi hj
    rw [hp i k hi, hp j k hj]
  · unfold Store.New at hst
    by_cases hn : n = 0
    · rw [if_pos hn] at hst
      exact absurd hst (by simp)
    · rw [if_neg hn] at hst
      intro j k hk
      rw [show st = { numShards := n, shards := fun _ _ => none }
        from (Option.some_injective _ hst).symm] at hk
      simp at hk

/-- C7 (witness): on the four-shard store, setting key `"a"` (which hashes
to shard 0) leaves shard 1 untouched, the set preserves the placement
invariant of the empty store, and a key present in two shards forces the
shard indices equal. -/
theorem shard_placement_witness :
    (store0.Set "a" "1" none 0).shards 1 = store0.shards 1 ∧
    (store0.Set "a" "1" none 0).Placed ∧
    (∀ i j, (store0.shards i "a").isSome = true →
      (store0.shards j "a").isSome = true → i = j) := by
  have hp0 : store0.Placed := by
    intro j k hk
    simp [store0] at hk
  refine ⟨((shard_placement store0 "a" "1" none 0 0).2.2.1 1 (by decide)).1,
    ((shard_placement store0 "a" "1" none 0 0).2.2.2.1 hp0).1,
    fun i j hi hj =>
      (shard_placement store0 "a" "1" none 0 0).2.2.2.2.1 hp0 "a" i j hi hj⟩

/-! ### Parser lemmas (claim C6) -/

theorem readLineAux_append (l rest : List Char) (h : '\n' ∉ l) :
    readLineAux (l ++ '\n' :: rest) = some (l, rest) := by
  induction l with
  | nil => simp [readLineAux]
  | cons c cs ih =>
    simp only [List.mem_cons, not_or] at h
    have hc : ¬ c = '\n' := fun hh => h.1 hh.symm
    simp [readLineAux, hc, ih h.2]

theorem readLine_append (l rest : List Char) (h : '\n' ∉ l) :
    readLine (l ++ '\n' :: rest)
      = some (if l.getLast? = some '\r' then l.dropLast else l, rest) := by
  unfold readLine
  rw [readLineAux_append l rest h]
  rfl

theorem parseElement_plus_x (rest : List Char) :
    parseElement ('+' :: 'x' :: '\r' :: '\n' :: rest) = .ok ("x", rest) := by
  unfold parseElement
  rw [show ('+' :: 'x' :: '\r' :: '\n' :: rest)
        = ['+', 'x', '\r'] ++ '\n' :: rest from rfl,
    readLine_append ['+', 'x', '\r'] rest (by decide)]
  rfl

/-- `c` consecutive `+x\r\n` simple-string elements on the wire. -/
def plusXChunks : Nat → List Char
  | 0 => []
  | n + 1 => '+' :: 'x' :: '\r' :: '\n' :: plusXChunks n

theorem parseElements_plus_x (c : Nat) (rest : List Char) :
    parseElements c (plusXChunks c ++ rest)
      = .ok (List.replicate c "x", rest) := by
  induction c with
  | zero => rfl
  | succ n ih =>
    show parseElements (n + 1)
      ('+' :: 'x' :: '\r' :: '\n' :: (plusXChunks n ++ rest)) = _
    unfold parseElements
    rw [parseElement_plus_x]
    dsimp only
    simp [ih, List.replicate_succ]

theorem parseArray_negative (cntStr : List Char) (rest : List Char) (n : Int)
    (hparse : goParseInt64 (String.mk cntStr) = some n) (hn : n < 0) :
    parseArray ('*' :: cntStr) rest
      = .error ("negative array length: " ++ toString n) := by
  unfold parseArray
  rw [show ('*' :: cntStr).drop 1 = cntStr from rfl, hparse]
  dsimp only
  rw [if_pos hn]

theorem parseBulkString_null (lenStr : List Char) (rest : List Char) (n : Int)
    (hparse : goParseInt64 (String.mk lenStr) = some n) (hn : n < 0) :
    parseBulkString ('$' :: lenStr) rest = .ok ("", rest) := by
  unfold parseBulkString
  rw [show ('$' :: lenStr).drop 1 = lenStr from rfl, hparse]
  dsimp only
  rw [if_pos hn]

theorem parseBulkString_reads_exactly (lenStr : List Char) (L : Nat)
    (hL : 0 < L) (hparse : goParseInt64 (String.mk lenStr) = some (L : Int))
    (data rest : List Char) (hdata : data.length = L) :
    parseBulkString ('$' :: lenStr) (data ++ '\r' :: '\n' :: rest)
      = .ok (String.mk data, rest) := by
  unfold parseBulkString
  rw [show ('$' :: lenStr).drop 1 = lenStr from rfl, hparse]
  dsimp only
  rw [if_neg (by omega), if_neg (by omega),
    if_neg (by simp only [List.length_append, List.length_cons, hdata]; omega)]
  have htake : (data ++ '\r' :: '\n' :: rest).take (L : Int).toNat = data := by
    rw [Int.toNat_natCast, ← hdata]
    exact List.take_left data _
  have hdrop : (data ++ '\r' :: '\n' :: rest).drop (L : Int).toNat
      = '\r' :: '\n' :: rest := by
    rw [Int.toNat_natCast, ← hdata]
    exact List.drop_left data _
  rw [htake, hdrop,
    show ('\r' :: '\n' :: rest) = ['\r'] ++ '\n' :: rest from rfl,
    readLine_append ['\r'] rest (by decide)]

theorem parseArray_no_element_cap (cntStr : List Char) (c : Nat)
    (rest : List Char)
    (hparse : goParseInt64 (String.mk cntStr) = some (c : Int)) (hc : 0 < c) :
    parseArray ('*' :: cntStr) (plusXChunks c ++ rest)
      = .ok ({ Name := "X", Args := List.replicate (c - 1) "x" }, rest) := by
  unfold parseArray
  rw [show ('*' :: cntStr).drop 1 = cntStr from rfl, hparse]
  dsimp only
  rw [if_neg (by omega), if_neg (by omega), Int.toNat_natCast,
    parseElements_plus_x]
  cases c with
  | zero => omega
  | succ m =>
    rw [List.replicate_succ]
    simp [goToUpper]

/-- C6 (counterexample): the command frame `*1\r\n$-1\r\n`, whose single
element is a null bulk string, parses successfully (into the empty command
name with no arguments) instead of failing. -/
theorem null_bulk_frame_parses :
    ParseCommand ("*1\r\n$-1\r\n".data)
      = .ok ({ Name := "", Args := [] }, []) := by decide

/-- C6 (amended): the decoder rejects a negative array length (with Go's
`negative array length` error), but enforces no other limit from the
claim: an array of 1,048,577 elements (here non-bulk `+x` elements, also
accepted) parses, a bulk string of 536,870,913 bytes (one over 512 MiB)
parses, and a null bulk string (length `-1`) does not fail parsing — it is
decoded as the empty string without consuming further input. -/
theorem parser_rejects_only_negative_length :
    (∀ cntStr rest n, goParseInt64 (String.mk cntStr) = some n → n < 0 →
      parseArray ('*' :: cntStr) rest
        = .error ("negative array length: " ++ toString n)) ∧
    (∀ rest, parseArray ('*' :: "1048577".data) (plusXChunks 1048577 ++ rest)
      = .ok ({ Name := "X", Args := List.replicate 1048576 "x" }, rest)) ∧
    (∀ data rest, data.length = 536870913 →
      parseBulkString ('$' :: "536870913".data) (data ++ '\r' :: '\n' :: rest)
        = .ok (String.mk data, rest)) ∧
    (∀ lenStr rest n, goParseInt64 (String.mk lenStr) = some n → n < 0 →
      parseBulkString ('$' :: lenStr) rest = .ok ("", rest)) := by
  refine ⟨parseArray_negative, fun rest => ?_, fun data rest hdata => ?_,
    parseBulkString_null⟩
  · exact parseArray_no_element_cap ("1048577".data) 1048577 rest
      (by decide) (by decide)
  · exact parseBulkString_reads_exactly ("536870913".data) 536870913
      (by decide) (by decide) data rest hdata

/-- C6 (witness for the amended statement): each conjunct applied at a
concrete input — the `*-1` header rejected, the 1,048,577-element array
and the 536,870,913-byte bulk accepted, and the `$-1` null bulk decoded as
the empty string. -/
theorem parser_rejects_only_negative_length_witness :
    parseArray ('*' :: "-1".data) []
      = .error ("negative array length: " ++ toString (-1 : Int)) ∧
    parseArray ('*' :: "1048577".data) (plusXChunks 1048577 ++ [])
      = .ok ({ Name := "X", Args := List.replicate 1048576 "x" }, []) ∧
    parseBulkString ('$' :: "536870913".data)
        (List.replicate 536870913 'a' ++ '\r' :: '\n' :: [])
      = .ok (String.mk (List.replicate 536870913 'a'), []) ∧
    parseBulkString ('$' :: "-1".data) [] = .ok ("", []) := by
  refine ⟨parser_rejects_only_negative_length.1 ("-1".data) [] (-1)
      (by decide) (by decide),
    parser_rejects_only_negative_length.2.1 [],
    parser_rejects_only_negative_length.2.2.1 (List.replicate 536870913 'a')
      [] (List.length_replicate 536870913 'a'),
    parser_rejects_only_negative_length.2.2.2 ("-1".data) [] (-1)
      (by decide) (by decide)⟩

end KVStash
